import Mathlib

/-!
# Azure SQL Server table: list, get and sub-resource hydrate functions

A shallow embedding of `azure/table_azure_sql_server.go`.

Every Go function of the file becomes a pure Lean function from the answers of
its external collaborators (session creation, client construction, the backend
`Get`, the pagers) to a `Run`: the ordered log of the external calls it made
together with what it returned, or the run-time panic that ended it.

* Go strings are Lean strings; `strings.Split` is only ever called with the
  one-byte separator "/", and is modelled for a one-character separator.
* `*string` fields are `Option String` (`none` is the nil pointer).
* A pager is the script of the answers of its successive `NextPage` calls;
  `More()` holds while the script is not exhausted. The element pointers of a
  fetched page are non-nil.
* The cancellation signal of the context is not modelled: the context is live
  for the whole call.
-/

namespace AzureSQLServer

/-! ## Data model -/

/-- A Go `error` value, identified by its provider error code. -/
structure GoError where
  code : String
  deriving DecidableEq, Repr

/-- The record `armsql.Server`. Only the pointer fields `Name` and `ID` are read
by the functions of this file; `Location` stands for the remaining attributes. -/
structure Server where
  Name : Option String
  ID : Option String
  Location : Option String := none
  deriving DecidableEq, Repr

/-- The record `armsql.ServersClientGetResponse`: it embeds a `Server` by value. -/
structure ServersClientGetResponse where
  Server : Server
  deriving DecidableEq, Repr

/-- The dynamic values an `interface{}` item can hold, by dynamic type. -/
inductive Item where
  /-- the untyped nil interface -/
  | nil
  /-- a value of type `armsql.Server` -/
  | server (s : Server)
  /-- a value of type `*armsql.Server` (`none` is the nil pointer) -/
  | serverPtr (p : Option Server)
  /-- a value of type `armsql.ServersClientGetResponse` -/
  | getResponse (r : ServersClientGetResponse)
  /-- a value of any other dynamic type -/
  | other
  deriving DecidableEq, Repr

/-- The part of `plugin.HydrateData` that is read: the parent item. -/
structure HydrateData where
  Item : Item
  deriving DecidableEq, Repr

/-- The part of `plugin.QueryData` that is read: the equality quals of the two
key columns, the optional row limit and the count of rows streamed so far. -/
structure QueryData where
  name : String := ""
  resource_group : String := ""
  limit : Option Nat := none
  rowsStreamed : Nat := 0
  deriving DecidableEq, Repr

/-- The session returned by `GetNewSessionUpdated`. -/
structure Session where
  SubscriptionID : String
  deriving DecidableEq, Repr

/-- The `armsql` clients constructed in this file, one per constructor. -/
inductive ClientKind where
  | servers
  | serverBlobAuditingPolicies
  | privateEndpointConnections
  | serverSecurityAlertPolicies
  | serverAzureADAdministrators
  | encryptionProtectors
  | serverVulnerabilityAssessments
  | firewallRules
  | virtualNetworkRules
  deriving DecidableEq, Repr

/-- The external calls a function makes, in the order it makes them. -/
inductive Event where
  /-- the call `GetNewSessionUpdated(ctx, d)` -/
  | newSession
  /-- the call `armsql.New...Client(session.SubscriptionID, session.Cred, nil)` -/
  | newClient (k : ClientKind) (subscriptionID : String)
  /-- the call `client.Get(ctx, resourceGroup, name, nil)` -/
  | get (resourceGroup name : String)
  /-- the call `client.NewListPager(nil)` -/
  | newListPager
  /-- the call `client.NewListByServerPager(resourceGroupName, serverName, nil)` -/
  | newListByServerPager (k : ClientKind) (resourceGroupName serverName : String)
  /-- the call `pager.NextPage(ctx)` -/
  | nextPage
  /-- the call `d.StreamListItem(ctx, item)` -/
  | streamListItem (item : Item)
  deriving DecidableEq, Repr

/-- The run-time panics of the Go code. -/
inductive Panic where
  /-- dereference of a nil pointer -/
  | nilDereference
  /-- indexing a slice of length `len` at `index` -/
  | indexOutOfRange (index len : Nat)
  /-- a failed single-value type assertion `x.(T)` -/
  | typeAssertion
  deriving DecidableEq, Repr

/-- How a call ends: it returns the Go pair `(interface{}, error)`, or panics. -/
inductive Outcome (α : Type) where
  | ret (item : Option α) (err : Option GoError)
  | panic (p : Panic)
  deriving DecidableEq, Repr

/-- A finished call: the external calls made, in order, and the outcome. -/
structure Run (α : Type) where
  events : List Event
  out : Outcome α
  deriving DecidableEq, Repr

/-- The answers of the external collaborators. `β` is the record type of the
sub-resources (audit policy, firewall rule, ...), which the code never inspects. -/
structure Env (β : Type) where
  /-- result of `GetNewSessionUpdated` -/
  GetNewSessionUpdated : Except GoError Session
  /-- result of the client constructor of each kind, given the subscription -/
  NewClient : ClientKind → String → Except GoError Unit
  /-- result of `ServersClient.Get`, given resource group and name -/
  Get : String → String → Except GoError ServersClientGetResponse
  /-- the pages of `ServersClient.NewListPager`: one entry per `NextPage` -/
  ListPages : List (Except GoError (List Server))
  /-- the pages of `NewListByServerPager` of each kind, given resource group
  and server name: one entry per `NextPage` -/
  ListByServerPages : ClientKind → String → String → List (Except GoError (List β))

/-! ## strings.Split -/

/-- The scan of `strings.Split` for a one-character separator: `cur` holds the
characters of the current segment, most recent first. -/
def splitAux (sep : Char) : List Char → List Char → List String
  | [], cur => [String.mk cur.reverse]
  | c :: cs, cur =>
    if c = sep then String.mk cur.reverse :: splitAux sep cs []
    else splitAux sep cs (c :: cur)

/-- The Go call `strings.Split(s, sep)` for a one-character separator. -/
def stringsSplit (s : String) (sep : Char) : List String :=
  splitAux sep s.toList []

/-- The Go expression `strings.Split(string(id), "/")[4]`: the indexing panics
when the slice has fewer than five elements. -/
def resourceGroupOf (id : String) : Except Panic String :=
  match (stringsSplit id '/')[4]? with
  | some rg => .ok rg
  | none => .error (.indexOutOfRange 4 (stringsSplit id '/').length)

/-! ## Host framework -/

/-- Modelled from the spec: the host's `QueryData.RowsRemaining`, which is not
part of this file. With a row limit it is the number of rows still required to
reach the limit, so it is 0 once the consumer has received enough rows; with no
limit it is a constant that is never 0. -/
def RowsRemaining (d : QueryData) : Nat :=
  match d.limit with
  | none => 2147483647
  | some l => l - d.rowsStreamed

/-- Modelled from the spec: the host's `QueryData.StreamListItem`, which is not
part of this file. The item is pushed to the consumer and counted. -/
def StreamListItem (d : QueryData) (item : Item) : QueryData × List Event :=
  ({ d with rowsStreamed := d.rowsStreamed + 1 }, [.streamListItem item])

/-- Modelled from the spec: `isNotFoundError`, defined elsewhere in the
repository. An error is of the not-found class when its code is one of the
listed codes. -/
def isNotFoundError (notFoundErrors : List String) (err : GoError) : Bool :=
  notFoundErrors.contains err.code

/-- The part of `plugin.GetConfig` that is read: the hydrate function and the
`ShouldIgnoreErrorFunc` of its `IgnoreConfig`. -/
structure GetConfig (β : Type) where
  Hydrate : Env β → QueryData → Run Item
  ShouldIgnoreErrorFunc : GoError → Bool

/-- Modelled from the spec: the host's point lookup, which is not part of this
file. It runs the hydrate function of the Get configuration; an error for which
`ShouldIgnoreErrorFunc` holds becomes "no row, no error", any other outcome is
passed on unchanged. -/
def pointLookup {β : Type} (c : GetConfig β) (env : Env β) (d : QueryData) : Run Item :=
  let r := c.Hydrate env d
  match r.out with
  | .ret _ (some e) => if c.ShouldIgnoreErrorFunc e then { r with out := .ret none none } else r
  | _ => r

/-! ## LIST FUNCTION -/

/-- The inner loop of `listSQLServer`, `for _, server := range result.Value`:
each server is streamed by value, and the loop stops the whole function (flag
`true`) as soon as no rows remain. -/
def streamValue (d : QueryData) : List Server → QueryData × List Event × Bool
  | [] => (d, [], false)
  | server :: rest =>
    let (d1, ev) := StreamListItem d (.server server)
    if RowsRemaining d1 = 0 then (d1, ev, true)
    else
      let (d2, ev2, stop) := streamValue d1 rest
      (d2, ev ++ ev2, stop)

/-- The outer loop of `listSQLServer`, `for pager.More()`, over the remaining
pages of the pager. The `err` of the final `return nil, err` is the one of the
client construction, which is nil there. -/
def listSQLServerLoop (d : QueryData) : List (Except GoError (List Server)) → Run Item
  | [] => ⟨[], .ret none none⟩
  | .error err :: _ => ⟨[.nextPage], .ret none (some err)⟩
  | .ok value :: rest =>
    match streamValue d value with
    | (_, ev, true) => ⟨.nextPage :: ev, .ret none none⟩
    | (d1, ev, false) =>
      let r := listSQLServerLoop d1 rest
      ⟨.nextPage :: ev ++ r.events, r.out⟩

/-- The function `listSQLServer`. -/
def listSQLServer {β : Type} (env : Env β) (d : QueryData) : Run Item :=
  match env.GetNewSessionUpdated with
  | .error err => ⟨[.newSession], .ret none (some err)⟩
  | .ok session =>
    match env.NewClient .servers session.SubscriptionID with
    | .error err => ⟨[.newSession, .newClient .servers session.SubscriptionID], .ret none (some err)⟩
    | .ok _ =>
      let r := listSQLServerLoop d env.ListPages
      ⟨[.newSession, .newClient .servers session.SubscriptionID, .newListPager] ++ r.events, r.out⟩

/-! ## HYDRATE FUNCTIONS -/

/-- The function `getSQLServer`. -/
def getSQLServer {β : Type} (env : Env β) (d : QueryData) : Run Item :=
  let name := d.name
  let resourceGroup := d.resource_group
  match env.GetNewSessionUpdated with
  | .error err => ⟨[.newSession], .ret none (some err)⟩
  | .ok session =>
    match env.NewClient .servers session.SubscriptionID with
    | .error err => ⟨[.newSession, .newClient .servers session.SubscriptionID], .ret none (some err)⟩
    | .ok _ =>
      let ev := [.newSession, .newClient .servers session.SubscriptionID, .get resourceGroup name]
      match env.Get resourceGroup name with
      | .error err => ⟨ev, .ret none (some err)⟩
      | .ok op =>
        if op.Server.ID ≠ none then ⟨ev, .ret (some (.server op.Server)) none⟩
        else ⟨ev, .ret none none⟩

/-- The Get configuration of `tableAzureSQLServer`. -/
def tableAzureSQLServerGet (β : Type) : GetConfig β where
  Hydrate := getSQLServer
  ShouldIgnoreErrorFunc :=
    isNotFoundError ["ResourceNotFound", "ResourceGroupNotFound", "404", "InvalidApiVersionParameter"]

/-- The paging loop shared by the hydrate functions,
`for pager.More() { result, err := pager.NextPage(ctx); ...; acc = append(acc, result.Value...) }`
followed by `return acc, nil`. `acc` is the slice collected so far. -/
def collectPages {β : Type} (acc : List β) : List (Except GoError (List β)) → Run (List β)
  | [] => ⟨[], .ret (some acc) none⟩
  | .error err :: _ => ⟨[.nextPage], .ret none (some err)⟩
  | .ok value :: rest =>
    let r := collectPages (acc ++ value) rest
    ⟨.nextPage :: r.events, r.out⟩

/-- The part of every hydrate function after the parent's name and resource
group are known: session, client of kind `k`, list-by-server pager, paging. -/
def listByServer {β : Type} (k : ClientKind) (env : Env β)
    (resourceGroupName serverName : String) : Run (List β) :=
  match env.GetNewSessionUpdated with
  | .error err => ⟨[.newSession], .ret none (some err)⟩
  | .ok session =>
    match env.NewClient k session.SubscriptionID with
    | .error err => ⟨[.newSession, .newClient k session.SubscriptionID], .ret none (some err)⟩
    | .ok _ =>
      let r := collectPages [] (env.ListByServerPages k resourceGroupName serverName)
      ⟨[.newSession, .newClient k session.SubscriptionID,
        .newListByServerPager k resourceGroupName serverName] ++ r.events, r.out⟩

/-- The opening of the seven server-typed hydrate functions:
`server := h.Item.(armsql.Server)`, `serverName := *server.Name`,
`resourceGroupName := strings.Split(string(*server.ID), "/")[4]`.
It gives the pair (server name, resource group), or the panic. -/
def serverNameAndGroup (h : HydrateData) : Except Panic (String × String) :=
  match h.Item with
  | .server server =>
    match server.Name with
    | none => .error .nilDereference
    | some serverName =>
      match server.ID with
      | none => .error .nilDereference
      | some id =>
        match resourceGroupOf id with
        | .error p => .error p
        | .ok resourceGroupName => .ok (serverName, resourceGroupName)
  | _ => .error .typeAssertion

/-- The common body of the seven server-typed hydrate functions, which differ
only in the client they construct and in the record type of the result. -/
def serverHydrate {β : Type} (k : ClientKind) (env : Env β) (h : HydrateData) : Run (List β) :=
  match serverNameAndGroup h with
  | .error p => ⟨[], .panic p⟩
  | .ok (serverName, resourceGroupName) => listByServer k env resourceGroupName serverName

/-- The function `getSQLServerAuditPolicy`. -/
def getSQLServerAuditPolicy {β : Type} (env : Env β) (h : HydrateData) : Run (List β) :=
  serverHydrate .serverBlobAuditingPolicies env h

/-- The function `listSQLServerPrivateEndpointConnections`. -/
def listSQLServerPrivateEndpointConnections {β : Type} (env : Env β) (h : HydrateData) :
    Run (List β) :=
  serverHydrate .privateEndpointConnections env h

/-- The function `getSQLServerSecurityAlertPolicy`. -/
def getSQLServerSecurityAlertPolicy {β : Type} (env : Env β) (h : HydrateData) : Run (List β) :=
  serverHydrate .serverSecurityAlertPolicies env h

/-- The function `getSQLServerAzureADAdministrator`. -/
def getSQLServerAzureADAdministrator {β : Type} (env : Env β) (h : HydrateData) : Run (List β) :=
  serverHydrate .serverAzureADAdministrators env h

/-- The function `getSQLServerEncryptionProtector`. -/
def getSQLServerEncryptionProtector {β : Type} (env : Env β) (h : HydrateData) : Run (List β) :=
  serverHydrate .encryptionProtectors env h

/-- The function `getSQLServerVulnerabilityAssessment`. -/
def getSQLServerVulnerabilityAssessment {β : Type} (env : Env β) (h : HydrateData) :
    Run (List β) :=
  serverHydrate .serverVulnerabilityAssessments env h

/-- The function `listSQLServerFirewallRules`. -/
def listSQLServerFirewallRules {β : Type} (env : Env β) (h : HydrateData) : Run (List β) :=
  serverHydrate .firewallRules env h

/-- The opening of `listSQLServerVirtualNetworkRules`: both strings start
empty, and the type switch over `h.Item` fills them for a `*armsql.Server` and
for an `armsql.ServersClientGetResponse`; no other dynamic type has a case. -/
def virtualNetworkRulesNameAndGroup (h : HydrateData) : Except Panic (String × String) :=
  let fromServer (item : Server) : Except Panic (String × String) :=
    match item.Name with
    | none => .error .nilDereference
    | some serverName =>
      match item.ID with
      | none => .error .nilDereference
      | some id =>
        match resourceGroupOf id with
        | .error p => .error p
        | .ok resourceGroupName => .ok (serverName, resourceGroupName)
  match h.Item with
  | .serverPtr none => .error .nilDereference
  | .serverPtr (some item) => fromServer item
  | .getResponse item => fromServer item.Server
  | _ => .ok ("", "")

/-- The function `listSQLServerVirtualNetworkRules`. -/
def listSQLServerVirtualNetworkRules {β : Type} (env : Env β) (h : HydrateData) : Run (List β) :=
  match virtualNetworkRulesNameAndGroup h with
  | .error p => ⟨[], .panic p⟩
  | .ok (serverName, resourceGroupName) =>
    listByServer .virtualNetworkRules env resourceGroupName serverName

/-- The seven server-typed hydrate functions, each with the kind of client it
constructs. -/
def serverTypedEnrichers (β : Type) : List (ClientKind × (Env β → HydrateData → Run (List β))) :=
  [(.serverBlobAuditingPolicies, getSQLServerAuditPolicy),
   (.privateEndpointConnections, listSQLServerPrivateEndpointConnections),
   (.serverSecurityAlertPolicies, getSQLServerSecurityAlertPolicy),
   (.serverAzureADAdministrators, getSQLServerAzureADAdministrator),
   (.encryptionProtectors, getSQLServerEncryptionProtector),
   (.serverVulnerabilityAssessments, getSQLServerVulnerabilityAssessment),
   (.firewallRules, listSQLServerFirewallRules)]

/-! ## Observations on a run -/

/-- The items streamed to the consumer, in order. -/
def streamedItems : List Event → List Item
  | [] => []
  | .streamListItem item :: evs => item :: streamedItems evs
  | _ :: evs => streamedItems evs

/-- The number of `NextPage` requests. -/
def pageRequests (evs : List Event) : Nat :=
  evs.count .nextPage

/-- The list-by-server calls, in order: client kind, resource group, server name. -/
def listByServerCalls : List Event → List (ClientKind × String × String)
  | [] => []
  | .newListByServerPager k rg n :: evs => (k, rg, n) :: listByServerCalls evs
  | _ :: evs => listByServerCalls evs

/-- The error a run returned, if it returned one. -/
def surfacedError {α : Type} (r : Run α) : Option GoError :=
  match r.out with
  | .ret _ err => err
  | .panic _ => none

/-- The events of a page whose items are all streamed. -/
def streamEvents (value : List Server) : List Event :=
  value.map (fun s => Event.streamListItem (.server s))

/-- The events of a run of pages that are fetched and streamed in full. -/
def pageEvents : List (List Server) → List Event
  | [] => []
  | value :: rest => .nextPage :: streamEvents value ++ pageEvents rest

/-! ## Example inputs -/

/-- The example identifier of the specification. -/
def exampleID : String :=
  "/subscriptions/sub1/resourceGroups/rg1/providers/Microsoft.Sql/servers/srv1"

/-- The example server: name `srv1` and the example identifier. -/
def exampleServer : Server :=
  { Name := some "srv1", ID := some exampleID }

/-- An environment in which every collaborator succeeds: the server list has
two pages, `Get` answers with the example server, and every list-by-server
pager has the pages `[1, 2]` and `[3]` for `(rg1, srv1)` and one empty page
for any other parent. -/
def exampleEnv : Env Nat where
  GetNewSessionUpdated := .ok ⟨"sub1"⟩
  NewClient := fun _ _ => .ok ()
  Get := fun _ _ => .ok ⟨exampleServer⟩
  ListPages := [.ok [exampleServer, { Name := some "srv2", ID := none }], .ok [exampleServer]]
  ListByServerPages := fun _ rg n =>
    if rg = "rg1" ∧ n = "srv1" then [.ok [1, 2], .ok [3]] else [.ok []]

/-- The query of the specification's point-lookup examples: `get("srv1","rg1")`. -/
def exampleQuery : QueryData :=
  { name := "srv1", resource_group := "rg1" }

/-- As `exampleEnv`, but session creation fails with an authorization error. -/
def authFailureEnv : Env Nat :=
  { exampleEnv with GetNewSessionUpdated := .error ⟨"AuthorizationFailed"⟩ }

/-- As `exampleEnv`, but the backend `Get` fails with `ResourceNotFound`. -/
def notFoundEnv : Env Nat :=
  { exampleEnv with Get := fun _ _ => .error ⟨"ResourceNotFound"⟩ }

/-- As `exampleEnv`, but the backend `Get` answers with an unset identifier. -/
def emptyIdentifierEnv : Env Nat :=
  { exampleEnv with Get := fun _ _ => .ok ⟨{ Name := some "srv1", ID := none }⟩ }

/-- As `exampleEnv`, but the second page of every pager fails with a throttling
error; a third page would follow. -/
def failingPageEnv : Env Nat :=
  { exampleEnv with
    ListPages := [.ok [exampleServer], .error ⟨"TooManyRequests"⟩, .ok [exampleServer]]
    ListByServerPages := fun _ _ _ => [.ok [1, 2], .error ⟨"TooManyRequests"⟩, .ok [3]] }

/-! ## Lemmas: strings.Split -/

theorem splitAux_length (sep : Char) (cs cur : List Char) :
    (splitAux sep cs cur).length = cs.count sep + 1 := by
  induction cs generalizing cur with
  | nil => simp [splitAux]
  | cons c cs ih =>
    by_cases h : c = sep
    · subst h
      simp [splitAux, ih]
    · have h2 : (c == sep) = false := by simpa using h
      simp [splitAux, h, ih, List.count_cons, h2]

theorem stringsSplit_length (s : String) (sep : Char) :
    (stringsSplit s sep).length = s.toList.count sep + 1 := by
  unfold stringsSplit
  exact splitAux_length sep s.toList []

theorem resourceGroupOf_ok (id : String) (h : 5 ≤ (stringsSplit id '/').length) :
    ∃ rg, (stringsSplit id '/')[4]? = some rg ∧ resourceGroupOf id = .ok rg := by
  have h4 : 4 < (stringsSplit id '/').length := by omega
  refine ⟨(stringsSplit id '/')[4], List.getElem?_eq_getElem h4, ?_⟩
  simp [resourceGroupOf, List.getElem?_eq_getElem h4]

theorem resourceGroupOf_panic (id : String) (h : (stringsSplit id '/').length < 5) :
    resourceGroupOf id = .error (.indexOutOfRange 4 (stringsSplit id '/').length) := by
  have h4 : (stringsSplit id '/')[4]? = none := List.getElem?_eq_none (by omega)
  simp [resourceGroupOf, h4]

/-! ## Lemmas: the lister -/

theorem RowsRemaining_ne_zero (d : QueryData)
    (h : d.limit = none ∨ ∃ l, d.limit = some l ∧ d.rowsStreamed < l) : RowsRemaining d ≠ 0 := by
  unfold RowsRemaining
  rcases h with h | ⟨l, h, hl⟩
  · simp [h]
  · simp [h]; omega

theorem streamValue_all (value : List Server) (d : QueryData)
    (h : d.limit = none ∨ ∃ l, d.limit = some l ∧ d.rowsStreamed + value.length < l) :
    streamValue d value
      = ({ d with rowsStreamed := d.rowsStreamed + value.length }, streamEvents value, false) := by
  induction value generalizing d with
  | nil => simp [streamValue, streamEvents]
  | cons s rest ih =>
    have h1 : RowsRemaining (StreamListItem d (.server s)).1 ≠ 0 := by
      apply RowsRemaining_ne_zero
      rcases h with h | ⟨l, h, hl⟩
      · left; simpa [StreamListItem] using h
      · right; refine ⟨l, by simpa [StreamListItem] using h, ?_⟩
        simp [StreamListItem] at hl ⊢; omega
    have h2 := ih (StreamListItem d (.server s)).1 (by
      rcases h with h | ⟨l, h, hl⟩
      · left; simpa [StreamListItem] using h
      · right; refine ⟨l, by simpa [StreamListItem] using h, ?_⟩
        simp [StreamListItem] at hl ⊢; omega)
    simp only [streamValue]
    rw [if_neg h1, h2]
    simp [StreamListItem, streamEvents, Nat.add_assoc, Nat.add_comm 1]

theorem streamValue_stop (value : List Server) (d : QueryData) (l : Nat)
    (hl : d.limit = some l) (h1 : d.rowsStreamed < l) (h2 : l ≤ d.rowsStreamed + value.length) :
    ∃ d1, streamValue d value = (d1, streamEvents (value.take (l - d.rowsStreamed)), true) := by
  induction value generalizing d with
  | nil => simp at h2; omega
  | cons s rest ih =>
    simp only [streamValue]
    by_cases h0 : RowsRemaining (StreamListItem d (.server s)).1 = 0
    · rw [if_pos h0]
      have : l - d.rowsStreamed = 1 := by
        simp [RowsRemaining, StreamListItem, hl] at h0; omega
      refine ⟨(StreamListItem d (.server s)).1, ?_⟩
      rw [this]
      simp [StreamListItem, streamEvents]
    · rw [if_neg h0]
      have h3 : d.rowsStreamed + 1 < l := by
        simp [RowsRemaining, StreamListItem, hl] at h0; omega
      obtain ⟨d1, hd1⟩ := ih (StreamListItem d (.server s)).1 (by simpa [StreamListItem] using hl)
        (by simpa [StreamListItem] using h3) (by simp [StreamListItem] at h2 ⊢; omega)
      refine ⟨d1, ?_⟩
      rw [hd1]
      have : l - d.rowsStreamed = (l - (d.rowsStreamed + 1)) + 1 := by omega
      simp [StreamListItem, streamEvents, this]

theorem streamedItems_append (a b : List Event) :
    streamedItems (a ++ b) = streamedItems a ++ streamedItems b := by
  induction a with
  | nil => rfl
  | cons e a ih => cases e <;> simp [streamedItems, ih]

theorem streamedItems_streamEvents (value : List Server) :
    streamedItems (streamEvents value) = value.map Item.server := by
  induction value with
  | nil => rfl
  | cons s rest ih =>
    simp only [streamEvents, List.map_cons, streamedItems] at ih ⊢
    rw [ih]

theorem pageRequests_streamEvents (value : List Server) :
    pageRequests (streamEvents value) = 0 := by
  simp [pageRequests, streamEvents, List.count_eq_zero]

theorem pageRequests_append (a b : List Event) :
    pageRequests (a ++ b) = pageRequests a + pageRequests b := by
  simp [pageRequests]

theorem pageRequests_cons_nextPage (a : List Event) :
    pageRequests (.nextPage :: a) = pageRequests a + 1 := by
  simp [pageRequests]

theorem streamedItems_pageEvents (pages : List (List Server)) :
    streamedItems (pageEvents pages) = pages.flatten.map Item.server := by
  induction pages with
  | nil => rfl
  | cons p rest ih =>
    simp [pageEvents, streamedItems, streamedItems_append, streamedItems_streamEvents, ih]

theorem pageRequests_pageEvents (pages : List (List Server)) :
    pageRequests (pageEvents pages) = pages.length := by
  induction pages with
  | nil => rfl
  | cons p rest ih =>
    simp only [pageEvents, pageRequests_cons_nextPage, pageRequests_append,
      pageRequests_streamEvents, ih, List.length_cons]
    omega

/-- While the row limit is not reached, the loop fetches and streams whole
pages and goes on with the remaining pages. -/
theorem listSQLServerLoop_pages (pre : List (List Server))
    (rest : List (Except GoError (List Server))) (d : QueryData)
    (h : d.limit = none ∨ ∃ l, d.limit = some l ∧ d.rowsStreamed + pre.flatten.length < l) :
    listSQLServerLoop d (pre.map .ok ++ rest)
      = ⟨pageEvents pre ++
          (listSQLServerLoop { d with rowsStreamed := d.rowsStreamed + pre.flatten.length } rest).events,
         (listSQLServerLoop { d with rowsStreamed := d.rowsStreamed + pre.flatten.length } rest).out⟩ := by
  induction pre generalizing d with
  | nil => simp [pageEvents]
  | cons p pre ih =>
    have hp : streamValue d p
        = ({ d with rowsStreamed := d.rowsStreamed + p.length }, streamEvents p, false) := by
      apply streamValue_all
      rcases h with h | ⟨l, h, hl⟩
      · left; exact h
      · right; refine ⟨l, h, ?_⟩
        simp at hl; omega
    have h2 := ih { d with rowsStreamed := d.rowsStreamed + p.length } (by
      rcases h with h | ⟨l, h, hl⟩
      · left; exact h
      · right; refine ⟨l, h, ?_⟩
        simp at hl ⊢; omega)
    simp only [List.map_cons, List.cons_append, listSQLServerLoop, hp, List.append_eq]
    rw [h2]
    simp [pageEvents, Nat.add_assoc]

theorem exists_limit_page (pages : List (List Server)) (n l : Nat) (h1 : n < l)
    (h2 : l ≤ n + pages.flatten.length) :
    ∃ pre p post, pages = pre ++ p :: post ∧ n + pre.flatten.length < l ∧
      l ≤ n + pre.flatten.length + p.length := by
  induction pages generalizing n with
  | nil => simp at h2; omega
  | cons q qs ih =>
    by_cases hq : l ≤ n + q.length
    · exact ⟨[], q, qs, rfl, by simpa using h1, by simpa using hq⟩
    · obtain ⟨pre, p, post, he, ha, hb⟩ := ih (n + q.length) (by omega) (by
        simp at h2 ⊢; omega)
      refine ⟨q :: pre, p, post, by simp [he], ?_, ?_⟩
      · simp only [List.flatten_cons, List.length_append]; omega
      · simp only [List.flatten_cons, List.length_append]; omega

/-- The loop on a page sequence in which the row limit is reached in page `p`:
the pages before `p` are streamed in full, `p` up to the limit, and nothing
after `p` is requested. -/
theorem listSQLServerLoop_limit (pre : List (List Server)) (p : List Server)
    (rest : List (Except GoError (List Server))) (d : QueryData) (l : Nat)
    (hl : d.limit = some l) (h1 : d.rowsStreamed + pre.flatten.length < l)
    (h2 : l ≤ d.rowsStreamed + pre.flatten.length + p.length) :
    listSQLServerLoop d (pre.map .ok ++ .ok p :: rest)
      = ⟨pageEvents pre ++
          .nextPage :: streamEvents (p.take (l - (d.rowsStreamed + pre.flatten.length))),
         .ret none none⟩ := by
  rw [listSQLServerLoop_pages pre _ d (Or.inr ⟨l, hl, h1⟩)]
  obtain ⟨d1, hd1⟩ := streamValue_stop p
    { d with rowsStreamed := d.rowsStreamed + pre.flatten.length } l hl h1 h2
  simp only [listSQLServerLoop, hd1]

theorem listSQLServer_ok {β : Type} (env : Env β) (d : QueryData) (sess : Session)
    (hs : env.GetNewSessionUpdated = .ok sess)
    (hc : env.NewClient .servers sess.SubscriptionID = .ok ()) :
    listSQLServer env d
      = ⟨[.newSession, .newClient .servers sess.SubscriptionID, .newListPager] ++
          (listSQLServerLoop d env.ListPages).events, (listSQLServerLoop d env.ListPages).out⟩ := by
  simp [listSQLServer, hs, hc]

/-! ## Lemmas: the hydrate functions -/

theorem collectPages_pages {β : Type} (pre : List (List β)) (rest : List (Except GoError (List β)))
    (acc : List β) :
    collectPages acc (pre.map .ok ++ rest)
      = ⟨List.replicate pre.length .nextPage ++ (collectPages (acc ++ pre.flatten) rest).events,
         (collectPages (acc ++ pre.flatten) rest).out⟩ := by
  induction pre generalizing acc with
  | nil => simp
  | cons p pre ih =>
    simp only [List.map_cons, List.cons_append, collectPages, List.append_eq]
    rw [ih]
    simp [List.replicate_succ]

theorem listByServerCalls_collectPages {β : Type} (pages : List (Except GoError (List β)))
    (acc : List β) : listByServerCalls (collectPages acc pages).events = [] := by
  induction pages generalizing acc with
  | nil => rfl
  | cons p pages ih =>
    cases p with
    | error e => rfl
    | ok v => simp [collectPages, listByServerCalls, ih]

theorem listByServer_ok {β : Type} (k : ClientKind) (env : Env β) (rg n : String) (sess : Session)
    (hs : env.GetNewSessionUpdated = .ok sess) (hc : env.NewClient k sess.SubscriptionID = .ok ()) :
    listByServer k env rg n
      = ⟨[.newSession, .newClient k sess.SubscriptionID, .newListByServerPager k rg n] ++
          (collectPages [] (env.ListByServerPages k rg n)).events,
         (collectPages [] (env.ListByServerPages k rg n)).out⟩ := by
  simp [listByServer, hs, hc]

theorem listByServer_calls_ok {β : Type} (k : ClientKind) (env : Env β) (rg n : String)
    (sess : Session) (hs : env.GetNewSessionUpdated = .ok sess)
    (hc : env.NewClient k sess.SubscriptionID = .ok ()) :
    listByServerCalls (listByServer k env rg n).events = [(k, rg, n)] := by
  rw [listByServer_ok k env rg n sess hs hc]
  simp [listByServerCalls, listByServerCalls_collectPages]

theorem listByServer_calls {β : Type} (k : ClientKind) (env : Env β) (rg n : String) :
    listByServerCalls (listByServer k env rg n).events = [] ∨
      ∃ sess, env.GetNewSessionUpdated = .ok sess ∧ env.NewClient k sess.SubscriptionID = .ok () := by
  cases hs : env.GetNewSessionUpdated with
  | error e => left; simp [listByServer, hs, listByServerCalls]
  | ok sess =>
    cases hc : env.NewClient k sess.SubscriptionID with
    | error e => left; simp [listByServer, hs, hc, listByServerCalls]
    | ok u => right; exact ⟨sess, rfl, hc⟩

theorem serverTypedEnrichers_eq {β : Type} (f : ClientKind × (Env β → HydrateData → Run (List β)))
    (hf : f ∈ serverTypedEnrichers β) : f.2 = serverHydrate f.1 := by
  simp only [serverTypedEnrichers, List.mem_cons, List.mem_singleton, List.not_mem_nil,
    or_false] at hf
  rcases hf with h | h | h | h | h | h | h <;> subst h <;> rfl

/-- Paging over pages that are all fetched: every page is requested and the
concatenation is returned. -/
theorem listByServer_all {β : Type} (k : ClientKind) (env : Env β) (rg n : String)
    (sess : Session) (pages : List (List β)) (hs : env.GetNewSessionUpdated = .ok sess)
    (hc : env.NewClient k sess.SubscriptionID = .ok ())
    (hp : env.ListByServerPages k rg n = pages.map .ok) :
    listByServer k env rg n
      = ⟨[.newSession, .newClient k sess.SubscriptionID, .newListByServerPager k rg n] ++
          List.replicate pages.length .nextPage,
         .ret (some pages.flatten) none⟩ := by
  have hcol := collectPages_pages pages [] ([] : List β)
  rw [List.append_nil, List.nil_append] at hcol
  rw [listByServer_ok k env rg n sess hs hc, hp, hcol]
  simp [collectPages]

/-- Paging over pages of which the one after `pre` fails: that request is the
last one, and the error is returned with the nil item. -/
theorem listByServer_error {β : Type} (k : ClientKind) (env : Env β) (rg n : String)
    (sess : Session) (pre : List (List β)) (e : GoError) (rest : List (Except GoError (List β)))
    (hs : env.GetNewSessionUpdated = .ok sess)
    (hc : env.NewClient k sess.SubscriptionID = .ok ())
    (hp : env.ListByServerPages k rg n = pre.map .ok ++ .error e :: rest) :
    listByServer k env rg n
      = ⟨[.newSession, .newClient k sess.SubscriptionID, .newListByServerPager k rg n] ++
          List.replicate (pre.length + 1) .nextPage,
         .ret none (some e)⟩ := by
  rw [listByServer_ok k env rg n sess hs hc, hp, collectPages_pages pre (.error e :: rest) []]
  simp [collectPages, List.replicate_succ']

theorem resourceGroupOf_of_segment (id rg : String) (h : (stringsSplit id '/')[4]? = some rg) :
    resourceGroupOf id = .ok rg := by
  simp [resourceGroupOf, h]

/-- A server value with name and a fifth identifier segment: the server-typed
hydrate function of kind `k` pages the list of that name and segment. -/
theorem serverHydrate_server {β : Type} (k : ClientKind) (env : Env β) (s : Server)
    (n id rg : String) (hn : s.Name = some n) (hid : s.ID = some id)
    (hrg : (stringsSplit id '/')[4]? = some rg) :
    serverHydrate k env ⟨.server s⟩ = listByServer k env rg n := by
  simp [serverHydrate, serverNameAndGroup, hn, hid, resourceGroupOf_of_segment id rg hrg]

/-- A server pointer or a get-response wrapper with name and a fifth identifier
segment: `listSQLServerVirtualNetworkRules` pages the list of that name and
segment. -/
theorem listSQLServerVirtualNetworkRules_handled {β : Type} (env : Env β) (h : HydrateData)
    (s : Server) (n id rg : String)
    (hitem : h.Item = .serverPtr (some s) ∨ h.Item = .getResponse ⟨s⟩)
    (hn : s.Name = some n) (hid : s.ID = some id)
    (hrg : (stringsSplit id '/')[4]? = some rg) :
    listSQLServerVirtualNetworkRules env h = listByServer .virtualNetworkRules env rg n := by
  rcases hitem with hi | hi <;>
    simp [listSQLServerVirtualNetworkRules, virtualNetworkRulesNameAndGroup, hi, hn, hid,
      resourceGroupOf_of_segment id rg hrg]

/-- An item of any dynamic type without a case in the type switch:
`listSQLServerVirtualNetworkRules` pages the list of the empty name and the
empty resource group. -/
theorem listSQLServerVirtualNetworkRules_unhandled {β : Type} (env : Env β) (h : HydrateData)
    (hitem : h.Item = .nil ∨ (∃ s, h.Item = .server s) ∨ h.Item = .other) :
    listSQLServerVirtualNetworkRules env h = listByServer .virtualNetworkRules env "" "" := by
  rcases hitem with hi | ⟨s, hi⟩ | hi <;>
    simp [listSQLServerVirtualNetworkRules, virtualNetworkRulesNameAndGroup, hi]

/-! ## Lemmas: the point lookup -/

theorem getSQLServer_surfacedError {β : Type} (env : Env β) (d : QueryData) (e : GoError) :
    surfacedError (getSQLServer env d) = some e ↔
      (env.GetNewSessionUpdated = .error e ∨
        ∃ sess : Session, env.GetNewSessionUpdated = .ok sess ∧
          (env.NewClient .servers sess.SubscriptionID = .error e ∨
            (env.NewClient .servers sess.SubscriptionID = .ok () ∧
              env.Get d.resource_group d.name = .error e))) := by
  cases hs : env.GetNewSessionUpdated with
  | error e1 => simp [getSQLServer, hs, surfacedError]
  | ok sess =>
    cases hc : env.NewClient .servers sess.SubscriptionID with
    | error e1 => simp [getSQLServer, hs, hc, surfacedError]
    | ok u =>
      cases hg : env.Get d.resource_group d.name with
      | error e1 => simp [getSQLServer, hs, hc, hg, surfacedError]
      | ok op =>
        by_cases h : op.Server.ID = none <;> simp [getSQLServer, hs, hc, hg, surfacedError, h]

theorem pointLookup_surfacedError {β : Type} (c : GetConfig β) (env : Env β) (d : QueryData)
    (e : GoError) :
    surfacedError (pointLookup c env d) = some e ↔
      surfacedError (c.Hydrate env d) = some e ∧ c.ShouldIgnoreErrorFunc e = false := by
  cases ho : (c.Hydrate env d).out with
  | panic p => simp [pointLookup, surfacedError, ho]
  | ret item err =>
    cases err with
    | none => simp [pointLookup, surfacedError, ho]
    | some e1 =>
      have hs : surfacedError (c.Hydrate env d) = some e1 := by simp [surfacedError, ho]
      rw [hs]
      by_cases h1 : c.ShouldIgnoreErrorFunc e1 = true
      · have hp : surfacedError (pointLookup c env d) = none := by
          simp [pointLookup, ho, h1, surfacedError]
        rw [hp]
        constructor
        · intro h; simp at h
        · rintro ⟨h, h2⟩
          simp at h
          subst h
          simp [h1] at h2
      · have hp : surfacedError (pointLookup c env d) = some e1 := by
          simp [pointLookup, ho, h1, hs]
        rw [hp]
        constructor
        · intro h
          simp at h
          subst h
          exact ⟨rfl, by simpa using h1⟩
        · rintro ⟨h, _⟩
          exact h

/-! ## The claims -/

/-- C1: for a server whose identifier has at least 5 "/"-separated segments,
every list-by-server call that one of the seven server-typed hydrate functions
issues carries the server's own name and segment 4 of the identifier as the
resource group, and the call is issued once session and client are available;
for the example identifier the derived resource group is `rg1`. -/
theorem serverTypedEnrichers_call_arguments {β : Type}
    (f : ClientKind × (Env β → HydrateData → Run (List β))) (hf : f ∈ serverTypedEnrichers β)
    (env : Env β) (s : Server) (n id : String) (hn : s.Name = some n) (hid : s.ID = some id)
    (hseg : 5 ≤ (stringsSplit id '/').length) :
    ∃ rg, (stringsSplit id '/')[4]? = some rg ∧
      (∀ c ∈ listByServerCalls (f.2 env ⟨.server s⟩).events, c = (f.1, rg, n)) ∧
      (∀ sess : Session, env.GetNewSessionUpdated = .ok sess →
        env.NewClient f.1 sess.SubscriptionID = .ok () →
        listByServerCalls (f.2 env ⟨.server s⟩).events = [(f.1, rg, n)]) ∧
      (stringsSplit exampleID '/')[4]? = some "rg1" := by
  obtain ⟨rg, h4, hrg⟩ := resourceGroupOf_ok id hseg
  have hrun : f.2 env ⟨.server s⟩ = listByServer f.1 env rg n := by
    rw [serverTypedEnrichers_eq f hf]
    simp [serverHydrate, serverNameAndGroup, hn, hid, hrg]
  refine ⟨rg, h4, ?_, ?_, by decide⟩
  · intro c hc
    rw [hrun] at hc
    rcases listByServer_calls f.1 env rg n with h0 | ⟨sess, hs, hcl⟩
    · rw [h0] at hc
      simp at hc
    · rw [listByServer_calls_ok f.1 env rg n sess hs hcl] at hc
      simpa using hc
  · intro sess hs hcl
    rw [hrun]
    exact listByServer_calls_ok f.1 env rg n sess hs hcl

/-- Witness of C1: `listSQLServerFirewallRules` on the example server. -/
theorem serverTypedEnrichers_call_arguments_witness :
    5 ≤ (stringsSplit exampleID '/').length ∧
    ∃ rg, (stringsSplit exampleID '/')[4]? = some rg ∧
      (∀ c ∈ listByServerCalls (listSQLServerFirewallRules exampleEnv ⟨.server exampleServer⟩).events,
        c = (.firewallRules, rg, "srv1")) ∧
      (∀ sess : Session, exampleEnv.GetNewSessionUpdated = .ok sess →
        exampleEnv.NewClient .firewallRules sess.SubscriptionID = .ok () →
        listByServerCalls (listSQLServerFirewallRules exampleEnv ⟨.server exampleServer⟩).events
          = [(.firewallRules, rg, "srv1")]) ∧
      (stringsSplit exampleID '/')[4]? = some "rg1" :=
  ⟨by decide,
   serverTypedEnrichers_call_arguments (.firewallRules, listSQLServerFirewallRules)
    (by simp [serverTypedEnrichers]) exampleEnv exampleServer "srv1" exampleID rfl rfl
    (by decide)⟩

/-- C2: when session and client are available and the backend get call for the
queried (name, resource group) succeeds, `getSQLServer` makes that one get call
and returns, with no error, the server record of the response when the
response's identifier is set, and no row when it is unset. -/
theorem getSQLServer_of_get_ok {β : Type} (env : Env β) (d : QueryData) (sess : Session)
    (op : ServersClientGetResponse) (hs : env.GetNewSessionUpdated = .ok sess)
    (hc : env.NewClient .servers sess.SubscriptionID = .ok ())
    (hg : env.Get d.resource_group d.name = .ok op) :
    (getSQLServer env d).events
        = [.newSession, .newClient .servers sess.SubscriptionID, .get d.resource_group d.name] ∧
      (op.Server.ID ≠ none → (getSQLServer env d).out = .ret (some (.server op.Server)) none) ∧
      (op.Server.ID = none → (getSQLServer env d).out = .ret none none) := by
  refine ⟨?_, ?_, ?_⟩
  · by_cases h : op.Server.ID = none <;> simp [getSQLServer, hs, hc, hg, h]
  · intro h
    simp [getSQLServer, hs, hc, hg, h]
  · intro h
    simp [getSQLServer, hs, hc, hg, h]

/-- Witness of C2: the response with an unset identifier gives no row. -/
theorem getSQLServer_of_get_ok_witness :
    emptyIdentifierEnv.Get exampleQuery.resource_group exampleQuery.name
        = .ok ⟨{ Name := some "srv1", ID := none }⟩ ∧
      (getSQLServer emptyIdentifierEnv exampleQuery).out = .ret none none :=
  ⟨rfl, (getSQLServer_of_get_ok emptyIdentifierEnv exampleQuery ⟨"sub1"⟩
    ⟨{ Name := some "srv1", ID := none }⟩ rfl rfl rfl).2.2 rfl⟩

/-- C3, as stated, fails: when session creation fails with an error outside the
not-found class, the point lookup surfaces that error although no backend get
call is made, and the backend get for that key would not fail. -/
theorem pointLookup_error_without_get :
    surfacedError (pointLookup (tableAzureSQLServerGet Nat) authFailureEnv exampleQuery)
        = some ⟨"AuthorizationFailed"⟩ ∧
      Event.get "rg1" "srv1" ∉ (pointLookup (tableAzureSQLServerGet Nat) authFailureEnv exampleQuery).events ∧
      authFailureEnv.Get "rg1" "srv1" = .ok ⟨exampleServer⟩ ∧
      ¬ ((surfacedError (pointLookup (tableAzureSQLServerGet Nat) authFailureEnv exampleQuery)).isSome
          ↔ ∃ e, authFailureEnv.Get exampleQuery.resource_group exampleQuery.name = .error e ∧
              isNotFoundError
                ["ResourceNotFound", "ResourceGroupNotFound", "404", "InvalidApiVersionParameter"]
                e = false) := by
  refine ⟨by decide, by decide, rfl, ?_⟩
  intro h
  have h1 : (surfacedError
      (pointLookup (tableAzureSQLServerGet Nat) authFailureEnv exampleQuery)).isSome := by decide
  obtain ⟨e, he, _⟩ := h.mp h1
  simp [authFailureEnv, exampleEnv] at he

/-- C3, amended: the point lookup surfaces the error `e` if and only if `e` is
outside the not-found class and is the error of the first failing step among
session creation, client construction and the backend get call; when the
backend get fails with an error of the class, the result is no row, no error. -/
theorem pointLookup_error_iff {β : Type} (env : Env β) (d : QueryData) (e : GoError) :
    (surfacedError (pointLookup (tableAzureSQLServerGet β) env d) = some e ↔
      e.code ∉ ["ResourceNotFound", "ResourceGroupNotFound", "404", "InvalidApiVersionParameter"] ∧
        (env.GetNewSessionUpdated = .error e ∨
          ∃ sess : Session, env.GetNewSessionUpdated = .ok sess ∧
            (env.NewClient .servers sess.SubscriptionID = .error e ∨
              (env.NewClient .servers sess.SubscriptionID = .ok () ∧
                env.Get d.resource_group d.name = .error e)))) ∧
      (∀ sess : Session, env.GetNewSessionUpdated = .ok sess →
        env.NewClient .servers sess.SubscriptionID = .ok () →
        env.Get d.resource_group d.name = .error e →
        e.code ∈ ["ResourceNotFound", "ResourceGroupNotFound", "404", "InvalidApiVersionParameter"] →
        (pointLookup (tableAzureSQLServerGet β) env d).out = .ret none none) := by
  have hcls : isNotFoundError
      ["ResourceNotFound", "ResourceGroupNotFound", "404", "InvalidApiVersionParameter"] e = false ↔
      e.code ∉ ["ResourceNotFound", "ResourceGroupNotFound", "404", "InvalidApiVersionParameter"] := by
    simp [isNotFoundError]
  constructor
  · rw [pointLookup_surfacedError, ← hcls]
    show surfacedError (getSQLServer env d) = some e ∧ _ ↔ _
    rw [getSQLServer_surfacedError, and_comm]
    rfl
  · intro sess hs hc hg hcl
    have h1 : isNotFoundError
        ["ResourceNotFound", "ResourceGroupNotFound", "404", "InvalidApiVersionParameter"] e = true := by
      simpa [isNotFoundError] using hcl
    simp [pointLookup, tableAzureSQLServerGet, getSQLServer, hs, hc, hg, h1]

/-- Witness of C3: `get("srv1","rg1")` with the backend failing with
`ResourceNotFound` gives no row and no error. -/
theorem pointLookup_error_iff_witness :
    notFoundEnv.Get exampleQuery.resource_group exampleQuery.name = .error ⟨"ResourceNotFound"⟩ ∧
      (pointLookup (tableAzureSQLServerGet Nat) notFoundEnv exampleQuery).out = .ret none none :=
  ⟨rfl, (pointLookup_error_iff notFoundEnv exampleQuery ⟨"ResourceNotFound"⟩).2 ⟨"sub1"⟩ rfl rfl rfl
    (by decide)⟩

/-- C4: with session and client available, pages that are all fetched
successfully and no row limit, `listSQLServer` requests every page, streams
exactly the concatenation of the pages' items, in page order and within-page
order (so sum of the page sizes many items), and returns no error. -/
theorem listSQLServer_streams_all {β : Type} (env : Env β) (d : QueryData) (sess : Session)
    (pages : List (List Server)) (hs : env.GetNewSessionUpdated = .ok sess)
    (hc : env.NewClient .servers sess.SubscriptionID = .ok ())
    (hp : env.ListPages = pages.map .ok) (hl : d.limit = none) :
    streamedItems (listSQLServer env d).events = pages.flatten.map Item.server ∧
      (streamedItems (listSQLServer env d).events).length = (pages.map List.length).sum ∧
      pageRequests (listSQLServer env d).events = pages.length ∧
      (listSQLServer env d).out = .ret none none := by
  have hloop := listSQLServerLoop_pages pages [] d (Or.inl hl)
  rw [List.append_nil] at hloop
  have hitems : streamedItems (listSQLServer env d).events = pages.flatten.map Item.server := by
    rw [listSQLServer_ok env d sess hs hc, hp, hloop]
    simp [streamedItems_append, streamedItems, streamedItems_pageEvents, listSQLServerLoop]
  refine ⟨hitems, ?_, ?_, ?_⟩
  · rw [hitems, List.length_map, List.length_flatten]
  · rw [listSQLServer_ok env d sess hs hc, hp, hloop, pageRequests_append, pageRequests_append,
      pageRequests_pageEvents]
    simp [pageRequests, listSQLServerLoop]
  · rw [listSQLServer_ok env d sess hs hc, hp, hloop]
    simp [listSQLServerLoop]

/-- Witness of C4: the two pages of the example environment, no row limit. -/
theorem listSQLServer_streams_all_witness :
    exampleEnv.ListPages
        = [[exampleServer, { Name := some "srv2", ID := none }], [exampleServer]].map .ok ∧
      streamedItems (listSQLServer exampleEnv exampleQuery).events
        = [.server exampleServer, .server { Name := some "srv2", ID := none }, .server exampleServer] ∧
      pageRequests (listSQLServer exampleEnv exampleQuery).events = 2 ∧
      (listSQLServer exampleEnv exampleQuery).out = .ret none none :=
  have h := listSQLServer_streams_all exampleEnv exampleQuery ⟨"sub1"⟩
    [[exampleServer, { Name := some "srv2", ID := none }], [exampleServer]] rfl rfl rfl rfl
  ⟨rfl, h.1, h.2.2.1, h.2.2.2⟩

/-- C5, as stated, fails for the row limit 0: the first item is streamed before
the limit is checked, so one item is streamed although 0 ≤ 3 rows are asked for. -/
theorem listSQLServer_limit_zero :
    exampleEnv.ListPages
        = [[exampleServer, { Name := some "srv2", ID := none }], [exampleServer]].map .ok ∧
      streamedItems (listSQLServer exampleEnv { exampleQuery with limit := some 0 }).events
        = [.server exampleServer] ∧
      (streamedItems (listSQLServer exampleEnv { exampleQuery with limit := some 0 }).events).length
        ≠ 0 :=
  ⟨rfl, by decide, by decide⟩

/-- C5, amended: with session and client available, pages that can all be
fetched and a row limit `1 ≤ L ≤ sum of the page sizes` on a fresh query,
`listSQLServer` streams exactly the first `L` items of the concatenated pages,
returns no error, and its last page request is the one for the page in which
the limit is reached. -/
theorem listSQLServer_streams_limit {β : Type} (env : Env β) (d : QueryData) (sess : Session)
    (pages : List (List Server)) (L : Nat) (hs : env.GetNewSessionUpdated = .ok sess)
    (hc : env.NewClient .servers sess.SubscriptionID = .ok ())
    (hp : env.ListPages = pages.map .ok) (hl : d.limit = some L) (h0 : d.rowsStreamed = 0)
    (h1 : 1 ≤ L) (h2 : L ≤ (pages.map List.length).sum) :
    streamedItems (listSQLServer env d).events = (pages.flatten.take L).map Item.server ∧
      (streamedItems (listSQLServer env d).events).length = L ∧
      (listSQLServer env d).out = .ret none none ∧
      ∃ pre p post, pages = pre ++ p :: post ∧ (pre.map List.length).sum < L ∧
        L ≤ (pre.map List.length).sum + p.length ∧
        pageRequests (listSQLServer env d).events = pre.length + 1 := by
  rw [← List.length_flatten] at h2
  obtain ⟨pre, p, post, he, ha, hb⟩ := exists_limit_page pages 0 L (by omega) (by omega)
  simp only [Nat.zero_add] at ha hb
  have hloop := listSQLServerLoop_limit pre p (post.map .ok) d L hl (by omega) (by omega)
  have hpages : pages.map (Except.ok : List Server → Except GoError (List Server))
      = pre.map .ok ++ .ok p :: post.map .ok := by
    rw [he]; simp
  have hrun := listSQLServer_ok env d sess hs hc
  rw [hp, hpages, hloop, h0, Nat.zero_add] at hrun
  have htake : pages.flatten.take L = pre.flatten ++ p.take (L - pre.flatten.length) := by
    rw [he]
    simp only [List.flatten_append, List.flatten_cons]
    rw [List.take_append_eq_append_take, List.take_of_length_le (by omega),
      List.take_append_eq_append_take]
    have : L - pre.flatten.length - p.length = 0 := by omega
    rw [this, List.take_zero, List.append_nil]
  have hitems : streamedItems (listSQLServer env d).events
      = (pages.flatten.take L).map Item.server := by
    rw [hrun, htake]
    simp [streamedItems_append, streamedItems, streamedItems_pageEvents,
      streamedItems_streamEvents]
  refine ⟨hitems, ?_, ?_, pre, p, post, he, ?_, ?_, ?_⟩
  · rw [hitems, List.length_map, List.length_take]
    omega
  · rw [hrun]
  · rw [← List.length_flatten]; exact ha
  · rw [← List.length_flatten]; exact hb
  · rw [hrun]
    show pageRequests (_ ++ (pageEvents pre ++ _)) = _
    rw [pageRequests_append, pageRequests_append, pageRequests_pageEvents,
      pageRequests_cons_nextPage, pageRequests_streamEvents]
    simp [pageRequests]

/-- Witness of C5, amended: limit 2 on the example pages of sizes 2 and 1. -/
theorem listSQLServer_streams_limit_witness :
    (1 ≤ 2 ∧ 2 ≤ ([[exampleServer, { Name := some "srv2", ID := none }], [exampleServer]].map
        List.length).sum) ∧
      streamedItems (listSQLServer exampleEnv { exampleQuery with limit := some 2 }).events
        = [.server exampleServer, .server { Name := some "srv2", ID := none }] ∧
      (streamedItems (listSQLServer exampleEnv { exampleQuery with limit := some 2 }).events).length
        = 2 ∧
      (listSQLServer exampleEnv { exampleQuery with limit := some 2 }).out = .ret none none :=
  have h := listSQLServer_streams_limit exampleEnv { exampleQuery with limit := some 2 } ⟨"sub1"⟩
    [[exampleServer, { Name := some "srv2", ID := none }], [exampleServer]] 2 rfl rfl rfl rfl rfl
    (by decide) (by decide)
  ⟨by decide, h.1, h.2.1, h.2.2.1⟩

/-- C6: with session and client available, when the pages before page `j` are
fetched, the row limit is not reached in them and the fetch of page `j` fails,
`listSQLServer` returns that error, has requested exactly `j` pages, and has
streamed exactly the items of the pages before `j`, in order. -/
theorem listSQLServer_page_error {β : Type} (env : Env β) (d : QueryData) (sess : Session)
    (pre : List (List Server)) (e : GoError) (rest : List (Except GoError (List Server)))
    (hs : env.GetNewSessionUpdated = .ok sess)
    (hc : env.NewClient .servers sess.SubscriptionID = .ok ())
    (hp : env.ListPages = pre.map .ok ++ .error e :: rest) (h0 : d.rowsStreamed = 0)
    (hl : d.limit = none ∨ ∃ L, d.limit = some L ∧ (pre.map List.length).sum < L) :
    (listSQLServer env d).out = .ret none (some e) ∧
      pageRequests (listSQLServer env d).events = pre.length + 1 ∧
      streamedItems (listSQLServer env d).events = pre.flatten.map Item.server := by
  have hloop := listSQLServerLoop_pages pre (.error e :: rest) d (by
    rcases hl with h | ⟨L, h, hL⟩
    · exact Or.inl h
    · exact Or.inr ⟨L, h, by rw [h0, List.length_flatten]; omega⟩)
  have hrun := listSQLServer_ok env d sess hs hc
  rw [hp, hloop] at hrun
  simp only [listSQLServerLoop] at hrun
  refine ⟨by rw [hrun], ?_, ?_⟩
  · rw [hrun]
    show pageRequests (_ ++ (pageEvents pre ++ _)) = _
    rw [pageRequests_append, pageRequests_append, pageRequests_pageEvents]
    simp [pageRequests]
  · rw [hrun]
    simp [streamedItems_append, streamedItems, streamedItems_pageEvents]

/-- Witness of C6: the second page fails after a first page of one server. -/
theorem listSQLServer_page_error_witness :
    failingPageEnv.ListPages
        = [[exampleServer]].map .ok ++ .error ⟨"TooManyRequests"⟩ :: [.ok [exampleServer]] ∧
      (listSQLServer failingPageEnv exampleQuery).out = .ret none (some ⟨"TooManyRequests"⟩) ∧
      pageRequests (listSQLServer failingPageEnv exampleQuery).events = 2 ∧
      streamedItems (listSQLServer failingPageEnv exampleQuery).events = [.server exampleServer] :=
  ⟨rfl, listSQLServer_page_error failingPageEnv exampleQuery ⟨"sub1"⟩ [[exampleServer]]
    ⟨"TooManyRequests"⟩ [.ok [exampleServer]] rfl rfl rfl rfl (Or.inl rfl)⟩

/-- C7, the code at the failing input: for the example server, as a server
value, the virtual network rules of the parent `(rg1, srv1)` are the pages
`[1, 2]` and `[3]`, all fetched successfully, but
`listSQLServerVirtualNetworkRules` pages the list of the empty name and empty
resource group and returns the empty collection instead of `[1, 2, 3]`; the
sibling `listSQLServerFirewallRules` returns `[1, 2, 3]` for the same parent. -/
theorem listSQLServerVirtualNetworkRules_wrong_parent :
    exampleEnv.ListByServerPages .virtualNetworkRules "rg1" "srv1" = [[1, 2], [3]].map .ok ∧
      listSQLServerVirtualNetworkRules exampleEnv ⟨.server exampleServer⟩
        = ⟨[.newSession, .newClient .virtualNetworkRules "sub1",
            .newListByServerPager .virtualNetworkRules "" "", .nextPage],
           .ret (some []) none⟩ ∧
      (listSQLServerVirtualNetworkRules exampleEnv ⟨.server exampleServer⟩).out
        ≠ .ret (some [1, 2, 3]) none ∧
      (listSQLServerFirewallRules exampleEnv ⟨.server exampleServer⟩).out
        = .ret (some [1, 2, 3]) none :=
  ⟨rfl, by decide, by decide, by decide⟩

/-- The part of C7 that the code does: with session and client available and
the pages of the parent's list all fetched successfully, each of the seven
server-typed hydrate functions on a server value, and
`listSQLServerVirtualNetworkRules` on a server pointer or a get-response
wrapper, requests every page and returns, with no error, the concatenation of
the pages' items in page order. -/
theorem hydrate_collect_all {β : Type} (env : Env β) (sess : Session) (pages : List (List β))
    (s : Server) (n id rg : String) (hs : env.GetNewSessionUpdated = .ok sess)
    (hn : s.Name = some n) (hid : s.ID = some id)
    (hrg : (stringsSplit id '/')[4]? = some rg) :
    (∀ f ∈ serverTypedEnrichers β,
      env.NewClient f.1 sess.SubscriptionID = .ok () →
      env.ListByServerPages f.1 rg n = pages.map .ok →
      f.2 env ⟨.server s⟩
        = ⟨[.newSession, .newClient f.1 sess.SubscriptionID, .newListByServerPager f.1 rg n] ++
            List.replicate pages.length .nextPage,
           .ret (some pages.flatten) none⟩) ∧
      (∀ h : HydrateData, (h.Item = .serverPtr (some s) ∨ h.Item = .getResponse ⟨s⟩) →
        env.NewClient .virtualNetworkRules sess.SubscriptionID = .ok () →
        env.ListByServerPages .virtualNetworkRules rg n = pages.map .ok →
        listSQLServerVirtualNetworkRules env h
          = ⟨[.newSession, .newClient .virtualNetworkRules sess.SubscriptionID,
              .newListByServerPager .virtualNetworkRules rg n] ++
              List.replicate pages.length .nextPage,
             .ret (some pages.flatten) none⟩) := by
  constructor
  · intro f hf hc hp
    rw [serverTypedEnrichers_eq f hf, serverHydrate_server f.1 env s n id rg hn hid hrg]
    exact listByServer_all f.1 env rg n sess pages hs hc hp
  · intro h hitem hc hp
    rw [listSQLServerVirtualNetworkRules_handled env h s n id rg hitem hn hid hrg]
    exact listByServer_all _ env rg n sess pages hs hc hp

/-- C8: with session and client available, when the pages `pre` of the list
that a hydrate function pages through are fetched and the fetch of the next
page fails, the function returns that error and the nil item (the items of
`pre` are not returned) and the failed request is its last page request. This
holds for each of the seven server-typed hydrate functions on a server value,
for `listSQLServerVirtualNetworkRules` on a server pointer or a get-response
wrapper, where the list is the one of the parent's name and resource group,
and for `listSQLServerVirtualNetworkRules` on any item without a case in its
type switch, where the list is the one of the empty name and resource group. -/
theorem enrichers_page_error {β : Type} (env : Env β) (sess : Session) (pre : List (List β))
    (e : GoError) (rest : List (Except GoError (List β)))
    (hs : env.GetNewSessionUpdated = .ok sess) :
    (∀ f ∈ serverTypedEnrichers β, ∀ (s : Server) (n id rg : String),
      s.Name = some n → s.ID = some id → (stringsSplit id '/')[4]? = some rg →
      env.NewClient f.1 sess.SubscriptionID = .ok () →
      env.ListByServerPages f.1 rg n = pre.map .ok ++ .error e :: rest →
      f.2 env ⟨.server s⟩
        = ⟨[.newSession, .newClient f.1 sess.SubscriptionID, .newListByServerPager f.1 rg n] ++
            List.replicate (pre.length + 1) .nextPage,
           .ret none (some e)⟩) ∧
      (∀ (h : HydrateData) (s : Server) (n id rg : String),
        (h.Item = .serverPtr (some s) ∨ h.Item = .getResponse ⟨s⟩) →
        s.Name = some n → s.ID = some id → (stringsSplit id '/')[4]? = some rg →
        env.NewClient .virtualNetworkRules sess.SubscriptionID = .ok () →
        env.ListByServerPages .virtualNetworkRules rg n = pre.map .ok ++ .error e :: rest →
        listSQLServerVirtualNetworkRules env h
          = ⟨[.newSession, .newClient .virtualNetworkRules sess.SubscriptionID,
              .newListByServerPager .virtualNetworkRules rg n] ++
              List.replicate (pre.length + 1) .nextPage,
             .ret none (some e)⟩) ∧
      (∀ h : HydrateData, (h.Item = .nil ∨ (∃ s, h.Item = .server s) ∨ h.Item = .other) →
        env.NewClient .virtualNetworkRules sess.SubscriptionID = .ok () →
        env.ListByServerPages .virtualNetworkRules "" "" = pre.map .ok ++ .error e :: rest →
        listSQLServerVirtualNetworkRules env h
          = ⟨[.newSession, .newClient .virtualNetworkRules sess.SubscriptionID,
              .newListByServerPager .virtualNetworkRules "" ""] ++
              List.replicate (pre.length + 1) .nextPage,
             .ret none (some e)⟩) := by
  refine ⟨?_, ?_, ?_⟩
  · intro f hf s n id rg hn hid hrg hc hp
    rw [serverTypedEnrichers_eq f hf, serverHydrate_server f.1 env s n id rg hn hid hrg]
    exact listByServer_error f.1 env rg n sess pre e rest hs hc hp
  · intro h s n id rg hitem hn hid hrg hc hp
    rw [listSQLServerVirtualNetworkRules_handled env h s n id rg hitem hn hid hrg]
    exact listByServer_error _ env rg n sess pre e rest hs hc hp
  · intro h hitem hc hp
    rw [listSQLServerVirtualNetworkRules_unhandled env h hitem]
    exact listByServer_error _ env "" "" sess pre e rest hs hc hp

/-- Witness of C8: in the environment whose second page fails after a first
page `[1, 2]`, the runs of `listSQLServerPrivateEndpointConnections` on the
example server, of `listSQLServerVirtualNetworkRules` on a get-response wrapper
of it, and of `listSQLServerVirtualNetworkRules` on the server value. -/
theorem enrichers_page_error_witness :
    failingPageEnv.GetNewSessionUpdated = .ok ⟨"sub1"⟩ ∧
      listSQLServerPrivateEndpointConnections failingPageEnv ⟨.server exampleServer⟩
        = ⟨[.newSession, .newClient .privateEndpointConnections "sub1",
            .newListByServerPager .privateEndpointConnections "rg1" "srv1", .nextPage, .nextPage],
           .ret none (some ⟨"TooManyRequests"⟩)⟩ ∧
      listSQLServerVirtualNetworkRules failingPageEnv ⟨.getResponse ⟨exampleServer⟩⟩
        = ⟨[.newSession, .newClient .virtualNetworkRules "sub1",
            .newListByServerPager .virtualNetworkRules "rg1" "srv1", .nextPage, .nextPage],
           .ret none (some ⟨"TooManyRequests"⟩)⟩ ∧
      listSQLServerVirtualNetworkRules failingPageEnv ⟨.server exampleServer⟩
        = ⟨[.newSession, .newClient .virtualNetworkRules "sub1",
            .newListByServerPager .virtualNetworkRules "" "", .nextPage, .nextPage],
           .ret none (some ⟨"TooManyRequests"⟩)⟩ :=
  have h := enrichers_page_error failingPageEnv ⟨"sub1"⟩ [[1, 2]] ⟨"TooManyRequests"⟩ [.ok [3]] rfl
  ⟨rfl,
   h.1 (.privateEndpointConnections, listSQLServerPrivateEndpointConnections)
     (by simp [serverTypedEnrichers]) exampleServer "srv1" exampleID "rg1" rfl rfl (by decide)
     rfl rfl,
   h.2.1 ⟨.getResponse ⟨exampleServer⟩⟩ exampleServer "srv1" exampleID "rg1" (Or.inr rfl) rfl rfl
     (by decide) rfl rfl,
   h.2.2 ⟨.server exampleServer⟩ (Or.inr (Or.inl ⟨exampleServer, rfl⟩)) rfl rfl⟩

/-- C9, the code at the failing input: the item that `listSQLServer` streams and
that `getSQLServer` returns is a server value, which no case of the type switch
of `listSQLServerVirtualNetworkRules` matches, so the list-by-server call is
issued with an empty server name and an empty resource group; the sibling
`listSQLServerFirewallRules` derives `rg1` and `srv1` from the same item. -/
theorem listSQLServerVirtualNetworkRules_plain_server :
    Event.streamListItem (.server exampleServer) ∈ (listSQLServer exampleEnv exampleQuery).events ∧
      (getSQLServer exampleEnv exampleQuery).out = .ret (some (.server exampleServer)) none ∧
      listByServerCalls
          (listSQLServerVirtualNetworkRules exampleEnv ⟨.server exampleServer⟩).events
        = [(.virtualNetworkRules, "", "")] ∧
      listByServerCalls (listSQLServerFirewallRules exampleEnv ⟨.server exampleServer⟩).events
        = [(.firewallRules, "rg1", "srv1")] := by
  decide

/-- The two shapes that the type switch of `listSQLServerVirtualNetworkRules`
does handle, a server pointer and a get-response wrapper: the call carries the
name and segment 4 of the identifier. -/
theorem listSQLServerVirtualNetworkRules_switch_cases {β : Type} (env : Env β) (h : HydrateData)
    (s : Server) (n id : String) (sess : Session)
    (hitem : h.Item = .serverPtr (some s) ∨ h.Item = .getResponse ⟨s⟩)
    (hn : s.Name = some n) (hid : s.ID = some id) (hseg : 5 ≤ (stringsSplit id '/').length)
    (hs : env.GetNewSessionUpdated = .ok sess)
    (hc : env.NewClient .virtualNetworkRules sess.SubscriptionID = .ok ()) :
    ∃ rg, (stringsSplit id '/')[4]? = some rg ∧
      listByServerCalls (listSQLServerVirtualNetworkRules env h).events
        = [(.virtualNetworkRules, rg, n)] := by
  obtain ⟨rg, h4, hrg⟩ := resourceGroupOf_ok id hseg
  refine ⟨rg, h4, ?_⟩
  have hrun : listSQLServerVirtualNetworkRules env h
      = listByServer .virtualNetworkRules env rg n := by
    rcases hitem with hi | hi <;>
      simp [listSQLServerVirtualNetworkRules, virtualNetworkRulesNameAndGroup, hi, hn, hid, hrg]
  rw [hrun]
  exact listByServer_calls_ok _ env rg n sess hs hc

/-- C10: in each of the seven server-typed hydrate functions, the derivation of
the resource group from the server's identifier succeeds exactly when the
identifier contains at least four "/" characters, that is, has at least 5
segments; with fewer than 5 segments the function panics before any session,
client or backend call and returns nothing (an index-out-of-range panic when
the name is set). -/
theorem serverTypedEnrichers_short_identifier {β : Type}
    (f : ClientKind × (Env β → HydrateData → Run (List β))) (hf : f ∈ serverTypedEnrichers β)
    (env : Env β) (s : Server) (id : String) (hid : s.ID = some id) :
    ((∃ rg, resourceGroupOf id = .ok rg) ↔ 4 ≤ id.toList.count '/') ∧
      (4 ≤ id.toList.count '/' ↔ 5 ≤ (stringsSplit id '/').length) ∧
      ((stringsSplit id '/').length < 5 →
        ∃ p, f.2 env ⟨.server s⟩ = ⟨[], .panic p⟩ ∧
          (s.Name ≠ none → p = .indexOutOfRange 4 (stringsSplit id '/').length)) := by
  have hlen := stringsSplit_length id '/'
  refine ⟨?_, by omega, ?_⟩
  · constructor
    · rintro ⟨rg, hrg⟩
      by_contra hlt
      rw [resourceGroupOf_panic id (by omega)] at hrg
      cases hrg
    · intro h4
      obtain ⟨rg, _, hrg⟩ := resourceGroupOf_ok id (by omega)
      exact ⟨rg, hrg⟩
  · intro hlt
    rw [serverTypedEnrichers_eq f hf]
    cases hn : s.Name with
    | none =>
      exact ⟨.nilDereference, by simp [serverHydrate, serverNameAndGroup, hn], by simp⟩
    | some n =>
      refine ⟨.indexOutOfRange 4 (stringsSplit id '/').length, ?_, fun _ => rfl⟩
      simp [serverHydrate, serverNameAndGroup, hn, hid, resourceGroupOf_panic id hlt]

/-- Witness of C10: `getSQLServerVulnerabilityAssessment` on a server whose
identifier `a/b/c/d` has four segments. -/
theorem serverTypedEnrichers_short_identifier_witness :
    (stringsSplit "a/b/c/d" '/').length < 5 ∧
      ∃ p, getSQLServerVulnerabilityAssessment exampleEnv
            ⟨.server { Name := some "srv1", ID := some "a/b/c/d" }⟩ = ⟨[], .panic p⟩ ∧
        ((some "srv1" : Option String) ≠ none → p = .indexOutOfRange 4 (stringsSplit "a/b/c/d" '/').length) :=
  ⟨by decide,
   (serverTypedEnrichers_short_identifier
    (.serverVulnerabilityAssessments, getSQLServerVulnerabilityAssessment)
    (by simp [serverTypedEnrichers]) exampleEnv { Name := some "srv1", ID := some "a/b/c/d" }
    "a/b/c/d" rfl).2.2 (by decide)⟩

end AzureSQLServer
